import Mathlib

/-!
# yamlcfg: dotted-path lookup and typed getters over a parsed YAML tree

A shallow embedding of `yaml.go` (package `yamlcfg`).

* Go `string` values are Lean `String`s. The byte-level tests of the code
  (`'.'`, `'0'..'9'`, `'_'`, the ASCII letters) are made on characters; a
  character outside ASCII fails each of them exactly as each of its UTF-8
  bytes does.
* A Go `interface{}` value held in the parsed tree is a `Value`: one
  constructor per dynamic type that `yamlTypeOf` tells apart, one for a
  `uint64` (which the YAML decoder yields for an integer above the `int64`
  range) and one for a value of any other dynamic type.
* A Go `map[interface{}]interface{}` is an association list read by first
  match; the nil map is `none` where the code tests for it.
* A Go `error` is `Option GoError`, `none` being the nil error.
* A call either returns or panics: `Outcome`.
* `float64` values are carried by their IEEE-754 bit pattern; the three
  floating-point routines the getters call (`strconv.ParseFloat`, the `%v`
  verb on a `float64`, the conversion `float64(int)`) are parameters,
  bundled in `FloatLib`.
* `strconv.ParseInt`, `strconv.ParseUint`, `strconv.ParseBool` and
  `strings.Split` belong to the Go standard library, not to this package;
  they are transcribed from the library's sources (`strconv/atoi.go`,
  `strconv/atob.go`, `strings/strings.go`).
-/

namespace Yamlcfg

/-! ## Data model -/

/-- The `YamlType` enumeration, in the order of the `iota` block. -/
inductive YamlType where
  | String
  | Integer
  | Float
  | Bool
  | Array
  | Map
  | Nil
deriving DecidableEq, Repr

/-- The numeric value of a `YamlType` constant. -/
def YamlType.toNat : YamlType → Nat
  | .String => 0
  | .Integer => 1
  | .Float => 2
  | .Bool => 3
  | .Array => 4
  | .Map => 5
  | .Nil => 6

/-- The table `yamlTypeStrings`. -/
def yamlTypeStrings : List String :=
  ["String", "Integer", "Float", "Bool", "Array", "Map", "Nil"]

/-- The method `func (typ YamlType) String() string`: `yamlTypeStrings[typ]`. -/
def YamlType_String (typ : YamlType) : String :=
  yamlTypeStrings.getD typ.toNat ""

/-- A `float64`, carried by its bit pattern. The zero value `0.0` has bits `0`. -/
structure Float64 where
  bits : Nat
deriving DecidableEq, Repr

/-- The `float64` zero value. -/
def Float64.zero : Float64 := ⟨0⟩

/-- A key of a `map[interface{}]interface{}`: any comparable scalar. -/
inductive Key where
  | str (s : String)
  | int (n : Int)
  | float64 (f : Float64)
  | bool (b : Bool)
  | null
deriving DecidableEq, Repr

/-- An `interface{}` held in the parsed tree. `null` is the nil interface;
`int` and `int64` are the two Go types an integer node may be held as, and
`uint64` the type of an integer node above the `int64` range; `other` is a
value of any dynamic type that is none of these, known by the name of its
type. -/
inductive Value where
  | null
  | str (s : String)
  | float64 (f : Float64)
  | int64 (n : Int)
  | int (n : Int)
  | bool (b : Bool)
  | seq (a : List Value)
  | map (m : List (Key × Value))
  | uint64 (n : Nat)
  | other (typeName : String)
deriving Repr

/-- A non-nil `map[interface{}]interface{}`. -/
abbrev GoMap := List (Key × Value)

/-- The index expression `values[s]` for a string `s`: the value stored under
the key equal to `s`, the nil interface when there is none. -/
def GoMap.index : GoMap → String → Value
  | [], _ => .null
  | (k, v) :: rest, s => if k = Key.str s then v else GoMap.index rest s

/-- The struct `Config`; `values` is `none` for the nil map. -/
structure Config where
  values : Option GoMap
deriving Repr

/-- An `interface{}` handed back by `Fetch`: a value of the tree, a `*Config`,
or the nil `map[string]interface{}` that the sequence loop appends. -/
inductive Dyn where
  | raw (v : Value)
  | config (c : Config)
  | nilStringMap
deriving Repr

/-- The `Err` field of a `*strconv.NumError`. -/
inductive NumErr where
  | ErrSyntax
  | ErrRange
  | invalidBase (base : Int)
  | invalidBitSize (bitSize : Int)
deriving DecidableEq, Repr

/-- A non-nil `error`: one built by `fmt.Errorf`, or a `*strconv.NumError`. -/
inductive GoError where
  | errorf (msg : String)
  | numError (Func : String) (Num : String) (Err : NumErr)
deriving DecidableEq, Repr

/-- How a call ends: it returns its results, or it panics. -/
inductive Outcome (α : Type) where
  | returned (a : α)
  | panicked (reason : String)
deriving DecidableEq, Repr

/-- Sequencing of a step that may panic with the rest of the function. -/
def Outcome.bind {α β : Type} : Outcome α → (α → Outcome β) → Outcome β
  | .returned a, f => f a
  | .panicked r, _ => .panicked r

/-- The floating-point routines the getters call, as parameters. -/
structure FloatLib where
  /-- The call `strconv.ParseFloat(s, 64)`. -/
  ParseFloat : String → Float64 × Option GoError
  /-- The call `fmt.Sprintf("%v", f)` for a `float64`. -/
  Sprintf_v : Float64 → String
  /-- The conversion `float64(n)` of an `int`. -/
  ofInt : Int → Float64

/-! ## The Go standard library routines the package calls -/

/-- The call `strings.Split(s, sep)` for a one-byte separator, on characters:
the pieces between consecutive separators, one more than there are
separators. -/
def splitChars (sep : Char) : List Char → List (List Char)
  | [] => [[]]
  | c :: cs =>
    if c = sep then [] :: splitChars sep cs
    else match splitChars sep cs with
      | [] => [[c]]
      | seg :: rest => (c :: seg) :: rest

/-- The call `strings.Split(s, sep)` for a one-byte separator. -/
def Split (s : String) (sep : Char) : List String :=
  (splitChars sep s.data).map String.mk

/-- The helper `lower(c)` of `strconv`: `c | ('x' - 'X')`. -/
def lower (c : Nat) : Nat := c ||| 32

/-- The constant `strconv.IntSize`, the width of `int`, here 64. It is read
only for bit size 0, which the package never passes. -/
def IntSize : Nat := 64

/-- The constant `maxUint64`. -/
def maxUint64 : Nat := 2 ^ 64 - 1

/-- How the digit loop of `ParseUint` ends. -/
inductive DigitLoop where
  | done (n : Nat) (underscores : Bool)
  | syntaxError
  | rangeError
deriving DecidableEq, Repr

/-- The digit value `d` that the loop of `ParseUint` reads from the byte `c`,
`none` for the `default` case of its switch. -/
def digitOf (c : Nat) : Option Nat :=
  if 48 ≤ c ∧ c ≤ 57 then some (c - 48)
  else if 97 ≤ lower c ∧ lower c ≤ 122 then some (lower c - 97 + 10)
  else none

/-- The loop `for _, c := range []byte(s)` of `ParseUint`, from the
accumulator `n` and the flag `underscores`. -/
def parseUintLoop (base0 : Bool) (base cutoff maxVal : Nat) :
    List Char → Nat → Bool → DigitLoop
  | [], n, underscores => .done n underscores
  | c :: cs, n, underscores =>
    if c = '_' ∧ base0 = true then parseUintLoop base0 base cutoff maxVal cs n true
    else
      match digitOf c.toNat with
      | none => .syntaxError
      | some d =>
        if d ≥ base then .syntaxError
        else if n ≥ cutoff then .rangeError
        else
          let n' := (n * base) % 2 ^ 64
          let n1 := (n' + d) % 2 ^ 64
          if n1 < n' ∨ n1 > maxVal then .rangeError
          else parseUintLoop base0 base cutoff maxVal cs n1 underscores

/-- The loop of `underscoreOK`, from the position after the base prefix;
`saw` is the last kind of character seen. -/
def underscoreOKLoop (hex : Bool) : List Char → Char → Bool
  | [], saw => saw != '_'
  | c :: cs, saw =>
    if (48 ≤ c.toNat ∧ c.toNat ≤ 57) ∨
        (hex = true ∧ 97 ≤ lower c.toNat ∧ lower c.toNat ≤ 102) then
      underscoreOKLoop hex cs '0'
    else if c = '_' then
      if saw != '0' then false else underscoreOKLoop hex cs '_'
    else if saw = '_' then false
    else underscoreOKLoop hex cs '!'

/-- The function `underscoreOK` of `strconv`: underscores only between digits
or between the base prefix and a digit. -/
def underscoreOK (s : List Char) : Bool :=
  let s := match s with
    | c :: cs => if c = '-' ∨ c = '+' then cs else c :: cs
    | [] => []
  match s with
  | c0 :: c1 :: rest =>
    if c0 = '0' ∧ (lower c1.toNat = 98 ∨ lower c1.toNat = 111 ∨ lower c1.toNat = 120) then
      underscoreOKLoop (decide (lower c1.toNat = 120)) rest '0'
    else underscoreOKLoop false s '^'
  | _ => underscoreOKLoop false s '^'

/-- The base and the remaining digits that `ParseUint` settles on when called
with base 0: a prefix `0b`, `0o`, `0x` (with at least one more byte) selects
2, 8, 16; any other leading `0` selects 8; otherwise 10. -/
def baseAndDigits (s : List Char) : Nat × List Char :=
  match s with
  | c0 :: rest =>
    if c0 = '0' then
      match rest with
      | c1 :: c2 :: rest2 =>
        if lower c1.toNat = 98 then (2, c2 :: rest2)
        else if lower c1.toNat = 111 then (8, c2 :: rest2)
        else if lower c1.toNat = 120 then (16, c2 :: rest2)
        else (8, rest)
      | _ => (8, rest)
    else (10, s)
  | [] => (10, s)

/-- The function `strconv.ParseUint(s, base, bitSize)`. -/
def ParseUint (s : String) (base : Int) (bitSize : Int) : Nat × Option GoError :=
  if s = "" then (0, some (.numError "ParseUint" s .ErrSyntax))
  else
    let base0 := decide (base = 0)
    if ¬ ((2 ≤ base ∧ base ≤ 36) ∨ base = 0) then
      (0, some (.numError "ParseUint" s (.invalidBase base)))
    else
      let bd : Nat × List Char := if base = 0 then baseAndDigits s.data else (base.toNat, s.data)
      if bitSize < 0 ∨ bitSize > 64 then
        (0, some (.numError "ParseUint" s (.invalidBitSize bitSize)))
      else
        let bits : Nat := if bitSize = 0 then IntSize else bitSize.toNat
        let cutoff := maxUint64 / bd.1 + 1
        let maxVal := (2 ^ bits % 2 ^ 64 + 2 ^ 64 - 1) % 2 ^ 64
        match parseUintLoop base0 bd.1 cutoff maxVal bd.2 0 false with
        | .syntaxError => (0, some (.numError "ParseUint" s .ErrSyntax))
        | .rangeError => (maxVal, some (.numError "ParseUint" s .ErrRange))
        | .done n underscores =>
          if underscores = true ∧ underscoreOK s.data = false then
            (0, some (.numError "ParseUint" s .ErrSyntax))
          else (n, none)

/-- The function `strconv.ParseInt(s, base, bitSize)`; the result is an
`int64`. -/
def ParseInt (s : String) (base : Int) (bitSize : Int) : Int × Option GoError :=
  if s = "" then (0, some (.numError "ParseInt" s .ErrSyntax))
  else
    let neg : Bool := match s.data with
      | c :: _ => decide (c = '-')
      | [] => false
    let rest : List Char := match s.data with
      | c :: cs => if c = '+' ∨ c = '-' then cs else c :: cs
      | [] => []
    let r := ParseUint (String.mk rest) base bitSize
    match r.2 with
    | some (.numError _ _ .ErrSyntax) => (0, some (.numError "ParseInt" s .ErrSyntax))
    | some (.numError _ _ (.invalidBase b)) => (0, some (.numError "ParseInt" s (.invalidBase b)))
    | some (.numError _ _ (.invalidBitSize b)) =>
      (0, some (.numError "ParseInt" s (.invalidBitSize b)))
    | some (.errorf _) => (0, r.2)
    | _ =>
      let un := r.1
      let bits : Nat := if bitSize = 0 then IntSize else bitSize.toNat
      let cutoff : Nat := 2 ^ (bits - 1) % 2 ^ 64
      if neg = false ∧ un ≥ cutoff then
        ((cutoff : Int) - 1, some (.numError "ParseInt" s .ErrRange))
      else if neg = true ∧ un > cutoff then
        (-(cutoff : Int), some (.numError "ParseInt" s .ErrRange))
      else
        let n : Int := (un : Int)
        (if neg then -n else n, none)

/-- The function `strconv.ParseBool(str)`: a switch on twelve spellings. -/
def ParseBool (str : String) : Bool × Option GoError :=
  if str = "1" ∨ str = "t" ∨ str = "T" ∨ str = "true" ∨ str = "TRUE" ∨ str = "True" then
    (true, none)
  else if str = "0" ∨ str = "f" ∨ str = "F" ∨ str = "false" ∨ str = "FALSE" ∨ str = "False" then
    (false, none)
  else (false, some (.numError "ParseBool" str .ErrSyntax))

/-- The decimal digits of `n`, most significant first; `fuel` bounds the
number of digits. -/
def decimalDigits : Nat → Nat → List Char
  | 0, _ => []
  | fuel + 1, n =>
    if n < 10 then [Char.ofNat (48 + n)]
    else decimalDigits fuel (n / 10) ++ [Char.ofNat (48 + n % 10)]

/-- The call `fmt.Sprintf("%v", n)` for an `int`: the decimal numeral, with a
leading minus sign for a negative number. -/
def Sprintf_v_int (n : Int) : String :=
  if n < 0 then String.mk ('-' :: decimalDigits (n.natAbs + 1) n.natAbs)
  else String.mk (decimalDigits (n.natAbs + 1) n.natAbs)

/-- The call `fmt.Sprintf("%v", b)` for a `bool`. -/
def Sprintf_v_bool (b : Bool) : String :=
  if b then "true" else "false"

/-! ## The package: navigation, classification, materialisation, getters -/

/-- The function `fetch(path, values)`: nil for the nil map and for the empty
path; the value under the only segment; otherwise the descent into the
mapping under the first segment, nil when that value is nil or no mapping. -/
def fetch : List String → Option GoMap → Value
  | _, none => .null
  | [], some _ => .null
  | [s], some values => values.index s
  | s :: s2 :: rest, some values =>
    match values.index s with
    | .null => .null
    | .map m => fetch (s2 :: rest) (some m)
    | _ => .null

/-- The function `yamlTypeOf(value)`: the chain of type assertions, in the
order of the source. A value of any other dynamic type fails them all and
reaches the bare `return` that ends the function, where the named result
`typ` still has its zero value, `String`. -/
def yamlTypeOf : Value → YamlType
  | .null => .Nil
  | .str _ => .String
  | .float64 _ => .Float
  | .int64 _ => .Integer
  | .int _ => .Integer
  | .bool _ => .Bool
  | .seq _ => .Array
  | .map _ => .Map
  | .uint64 _ => .String
  | .other _ => .String

/-- The method `fetchRaw(path)`: split on dots, navigate, classify. -/
def fetchRaw (cfg : Config) (path : String) : Value × YamlType :=
  let splits := Split path '.'
  let result := fetch splits cfg.values
  (result, yamlTypeOf result)

/-- The assertion `a, _ := raw.([]interface{})`: the nil slice on failure. -/
def sliceOrNil : Value → List Value
  | .seq a => a
  | _ => []

/-- The assertion `m, _ := raw.(map[interface{}]interface{})`: the nil map on
failure. -/
def mapOrNil : Value → Option GoMap
  | .map m => some m
  | _ => none

/-- The body of the loop of `Fetch` over the remaining elements of `a`: each
round appends to `rg` the nil `map[string]interface{}` (the failed assertion
`v.(map[string]interface{})`) for a mapping and the element itself otherwise. -/
def fetchLoop : List Value → List Dyn → List Dyn
  | [], rg => rg
  | v :: rest, rg =>
    if yamlTypeOf v = .Map then fetchLoop rest (rg ++ [Dyn.nilStringMap])
    else fetchLoop rest (rg ++ [Dyn.raw v])

/-- The variables of `Fetch` when it returns: the two named results and, in
the sequence branch, the local slice `rg`. -/
structure FetchLocals where
  result : Dyn
  typ : YamlType
  rg : List Dyn

/-- The body of the method `Fetch(path)`. The sequence branch builds `rg`
from `make([]interface{}, len(a))` and never assigns `result`, which keeps
its zero value, the nil interface. -/
def fetchBody (cfg : Config) (path : String) : FetchLocals :=
  let r := fetchRaw cfg path
  if r.2 = .Array then
    let a := sliceOrNil r.1
    let rg := fetchLoop a (List.replicate a.length (Dyn.raw .null))
    { result := Dyn.raw .null, typ := r.2, rg := rg }
  else if r.2 = .Map then
    { result := Dyn.config { values := mapOrNil r.1 }, typ := r.2, rg := [] }
  else
    { result := Dyn.raw r.1, typ := r.2, rg := [] }

/-- The method `Fetch(path)`: the named results `(result, typ)`. -/
def Fetch (cfg : Config) (path : String) : Dyn × YamlType :=
  let st := fetchBody cfg path
  (st.result, st.typ)

/-- The name of the dynamic type of an `interface{}`, as a failed type
assertion reports it. -/
def dynTypeName : Dyn → String
  | .raw .null => "nil"
  | .raw (.str _) => "string"
  | .raw (.float64 _) => "float64"
  | .raw (.int64 _) => "int64"
  | .raw (.int _) => "int"
  | .raw (.bool _) => "bool"
  | .raw (.seq _) => "[]interface \x7b\x7d"
  | .raw (.map _) => "map[interface \x7b\x7d]interface \x7b\x7d"
  | .raw (.uint64 _) => "uint64"
  | .raw (.other typeName) => typeName
  | .config _ => "*yamlcfg.Config"
  | .nilStringMap => "map[string]interface \x7b\x7d"

/-- The panic of a failed single-value type assertion. -/
def conversionPanic {α : Type} (val : Dyn) (want : String) : Outcome α :=
  .panicked ("interface conversion: interface \x7b\x7d is " ++ dynTypeName val ++ ", not " ++ want)

/-- The assertion `val.(string)`. -/
def assertString : Dyn → Outcome String
  | .raw (.str s) => .returned s
  | val => conversionPanic val "string"

/-- The assertion `val.(int)`. -/
def assertInt : Dyn → Outcome Int
  | .raw (.int n) => .returned n
  | val => conversionPanic val "int"

/-- The assertion `val.(float64)`. -/
def assertFloat64 : Dyn → Outcome Float64
  | .raw (.float64 f) => .returned f
  | val => conversionPanic val "float64"

/-- The assertion `val.(bool)`. -/
def assertBool : Dyn → Outcome Bool
  | .raw (.bool b) => .returned b
  | val => conversionPanic val "bool"

/-- The method `GetString(path)`. -/
def GetString (fl : FloatLib) (cfg : Config) (path : String) :
    Outcome (String × Option GoError) :=
  let r := Fetch cfg path
  if r.2 = .Nil then .returned ("", none)
  else if r.2 = .String then (assertString r.1).bind fun s => .returned (s, none)
  else if r.2 = .Integer then (assertInt r.1).bind fun n => .returned (Sprintf_v_int n, none)
  else if r.2 = .Float then
    (assertFloat64 r.1).bind fun f => .returned (fl.Sprintf_v f, none)
  else if r.2 = .Bool then (assertBool r.1).bind fun b => .returned (Sprintf_v_bool b, none)
  else .returned ("", some (.errorf ("Cannot convert " ++ YamlType_String r.2 ++ " into string")))

/-- The method `GetInt(path)`; `strconv.ParseInt` is called with base 0 and
bit size 10. -/
def GetInt (cfg : Config) (path : String) : Outcome (Int × Option GoError) :=
  let r := Fetch cfg path
  if r.2 = .Nil then .returned (0, none)
  else if r.2 = .String then (assertString r.1).bind fun s => .returned (ParseInt s 0 10)
  else if r.2 = .Integer then (assertInt r.1).bind fun n => .returned (n, none)
  else .returned (0, some (.errorf ("Cannot convert " ++ YamlType_String r.2 ++ " into int64")))

/-- The method `GetFloat(path)`. -/
def GetFloat (fl : FloatLib) (cfg : Config) (path : String) :
    Outcome (Float64 × Option GoError) :=
  let r := Fetch cfg path
  if r.2 = .Nil then .returned (Float64.zero, none)
  else if r.2 = .Float then (assertFloat64 r.1).bind fun f => .returned (f, none)
  else if r.2 = .String then (assertString r.1).bind fun s => .returned (fl.ParseFloat s)
  else if r.2 = .Integer then (assertInt r.1).bind fun n => .returned (fl.ofInt n, none)
  else .returned (Float64.zero,
    some (.errorf ("Cannot convert " ++ YamlType_String r.2 ++ " into float64")))

/-- The method `GetBool(path)`. It has no test for `Nil`, and its error
message names `float64`. -/
def GetBool (cfg : Config) (path : String) : Outcome (Bool × Option GoError) :=
  let r := Fetch cfg path
  if r.2 = .Bool then (assertBool r.1).bind fun b => .returned (b, none)
  else if r.2 = .String then (assertString r.1).bind fun s => .returned (ParseBool s)
  else .returned (false,
    some (.errorf ("Cannot convert " ++ YamlType_String r.2 ++ " into float64")))

/-- One instance of the floating-point parameters, for evaluating the getters
at concrete inputs: it reads no string as a number and prints and converts
every number as zero. No theorem depends on these choices. -/
def FloatLib.sample : FloatLib where
  ParseFloat := fun s => (Float64.zero, some (.numError "ParseFloat" s .ErrSyntax))
  Sprintf_v := fun _ => "0"
  ofInt := fun _ => Float64.zero

/-- The pair that `Fetch` returns, as a function of the raw value that
`fetchRaw` found: the three branches of `Fetch` side by side. -/
def materialised : Value → Dyn × YamlType
  | .seq _ => (Dyn.raw .null, .Array)
  | .map m => (Dyn.config { values := some m }, .Map)
  | v => (Dyn.raw v, yamlTypeOf v)

/-! ## Reference definitions, following the specification's words -/

/-- The reference path walk of the specification: `ms` lists the mappings
`m1 .. m(n-1)` met on the way, each the value of the previous mapping under
the next segment, and `v` is the value of the last mapping under the last
segment. -/
def WalkChain : GoMap → List String → List GoMap → Value → Prop
  | m, [s], [], v => v = m.index s
  | m, s :: s2 :: rest, m' :: ms, v => m.index s = .map m' ∧ WalkChain m' (s2 :: rest) ms v
  | _, _, _, _ => False

/-- The walk breaks before the last segment: the value under some non-last
segment (missing, null or of any other kind) is not a mapping. -/
def Broken : GoMap → List String → Prop
  | m, s :: s2 :: rest =>
    (∀ m', m.index s ≠ .map m') ∨ ∃ m', m.index s = .map m' ∧ Broken m' (s2 :: rest)
  | _, _ => False

/-- The two-value index expression `v, ok := values[s]`: the entry under the
key `s`, if the mapping has one. -/
def GoMap.find? : GoMap → String → Option Value
  | [], _ => none
  | (k, v) :: rest, s => if k = Key.str s then some v else GoMap.find? rest s

/-- The node of the tree that a segment list designates, in the
specification's sense: `none` when a segment is missing from the current
mapping or a non-last segment leads to something that is no mapping. -/
def resolveNode : List String → GoMap → Option Value
  | [], _ => none
  | [s], m => m.find? s
  | s :: s2 :: rest, m =>
    match m.find? s with
    | some (.map m') => resolveNode (s2 :: rest) m'
    | _ => none

/-- The node that a dotted path designates in a config, if any. -/
def Config.node? (cfg : Config) (path : String) : Option Value :=
  match cfg.values with
  | none => none
  | some m => resolveNode (Split path '.') m

/-- The decimal reading of a string of digits. -/
def decimalValue (ds : List Char) : Nat :=
  ds.foldl (fun acc c => 10 * acc + (c.toNat - 48)) 0

/-! ## Auxiliary facts about `Fetch` -/

/-- The tag `Fetch` returns is the tag of `fetchRaw`. -/
theorem Fetch_typ (cfg : Config) (path : String) :
    (Fetch cfg path).2 = (fetchRaw cfg path).2 := by
  simp only [Fetch, fetchBody]
  split_ifs <;> rfl

/-- The results of `Fetch` are `materialised` at the raw value. -/
theorem Fetch_eq_materialised (cfg : Config) (path : String) :
    Fetch cfg path = materialised (fetchRaw cfg path).1 := by
  simp only [Fetch, fetchBody, fetchRaw]
  generalize fetch (Split path '.') cfg.values = v
  cases v <;> simp [yamlTypeOf, materialised, mapOrNil]

/-- The loop of `Fetch` appends one entry per element to `rg`. -/
theorem fetchLoop_eq (a : List Value) (rg : List Dyn) :
    fetchLoop a rg =
      rg ++ a.map (fun v => if yamlTypeOf v = .Map then Dyn.nilStringMap else Dyn.raw v) := by
  induction a generalizing rg with
  | nil => simp [fetchLoop]
  | cons v rest ih =>
    unfold fetchLoop
    split_ifs with h <;> simp [ih, h]

/-! ## C1 -/

/-- C1 (as the code behaves): on a path whose resolved tag is `Nil`,
`GetString`, `GetInt` and `GetFloat` return their zero value with a nil
error, while `GetBool`, which has no test for `Nil`, returns `false` together
with the error "Cannot convert Nil into float64". -/
theorem getters_on_absent (fl : FloatLib) (cfg : Config) (path : String)
    (h : (fetchRaw cfg path).2 = YamlType.Nil) :
    GetString fl cfg path = .returned ("", none) ∧
    GetInt cfg path = .returned (0, none) ∧
    GetFloat fl cfg path = .returned (Float64.zero, none) ∧
    GetBool cfg path = .returned (false, some (.errorf "Cannot convert Nil into float64")) := by
  have ht : (Fetch cfg path).2 = YamlType.Nil := by rw [Fetch_typ]; exact h
  refine ⟨?_, ?_, ?_, ?_⟩
  · simp [GetString, ht]
  · simp [GetInt, ht]
  · simp [GetFloat, ht]
  · simp [GetBool, ht]
    decide

/-- The absent path `missing` of a one-entry config: `GetBool` errors. -/
theorem getters_on_absent_witness :
    (fetchRaw ⟨some [(Key.str "present", Value.bool true)]⟩ "missing").2 = YamlType.Nil ∧
    GetBool ⟨some [(Key.str "present", Value.bool true)]⟩ "missing" =
      .returned (false, some (.errorf "Cannot convert Nil into float64")) :=
  ⟨by decide,
   (getters_on_absent FloatLib.sample ⟨some [(Key.str "present", Value.bool true)]⟩ "missing"
      (by decide)).2.2.2⟩

/-! ## C2 -/

/-- A one-segment path is an index into the mapping. -/
theorem fetch_single (m : GoMap) (s : String) : fetch [s] (some m) = m.index s := by
  simp [fetch]

/-- A non-last segment whose value is a mapping: `fetch` descends into it. -/
theorem fetch_step (m m' : GoMap) (s s2 : String) (rest : List String)
    (h : m.index s = .map m') :
    fetch (s :: s2 :: rest) (some m) = fetch (s2 :: rest) (some m') := by
  simp [fetch, h]

/-- A non-last segment whose value is no mapping: `fetch` returns nil. -/
theorem fetch_stop (m : GoMap) (s s2 : String) (rest : List String)
    (h : ∀ m', m.index s ≠ .map m') :
    fetch (s :: s2 :: rest) (some m) = .null := by
  unfold fetch
  split
  · rfl
  · next m' hm => exact absurd hm (h m')
  · rfl

/-- C2: for every root mapping and every non-empty segment list, `fetch`
returns `v` exactly when either the reference walk reaches `v` through
mappings `m1 .. m(n-1)` (each the value of the previous one under the next
segment, `v` the value of the last one under the last segment), or the walk
breaks at a non-last segment whose value is not a mapping and `v` is nil. -/
theorem fetch_iff_walk (m0 : GoMap) (segs : List String) (hne : segs ≠ []) (v : Value) :
    fetch segs (some m0) = v ↔
      (∃ ms, WalkChain m0 segs ms v) ∨ (Broken m0 segs ∧ v = .null) := by
  induction segs generalizing m0 with
  | nil => exact absurd rfl hne
  | cons s rest ih =>
    cases rest with
    | nil =>
      rw [fetch_single]
      constructor
      · intro h
        exact Or.inl ⟨[], by simp [WalkChain, h]⟩
      · rintro (⟨ms, h⟩ | ⟨h, _⟩)
        · cases ms with
          | nil => simpa [WalkChain] using h.symm
          | cons a b => simp [WalkChain] at h
        · simp [Broken] at h
    | cons s2 rest =>
      by_cases hm : ∃ m', m0.index s = .map m'
      · obtain ⟨m', hm'⟩ := hm
        rw [fetch_step m0 m' s s2 rest hm', ih m' (by simp)]
        constructor
        · rintro (⟨ms, h⟩ | ⟨h, hv⟩)
          · exact Or.inl ⟨m' :: ms, by simp [WalkChain, hm', h]⟩
          · exact Or.inr ⟨by
              unfold Broken
              exact Or.inr ⟨m', hm', h⟩, hv⟩
        · rintro (⟨ms, h⟩ | ⟨h, hv⟩)
          · cases ms with
            | nil => simp [WalkChain] at h
            | cons a b =>
              simp only [WalkChain, hm', Value.map.injEq] at h
              obtain ⟨rfl, h⟩ := h
              exact Or.inl ⟨b, h⟩
          · unfold Broken at h
            rcases h with h | ⟨m'', h1, h2⟩
            · exact absurd hm' (h m')
            · rw [hm'] at h1
              cases h1
              exact Or.inr ⟨h2, hv⟩
      · have hm2 : ∀ m', m0.index s ≠ .map m' := fun m' h => hm ⟨m', h⟩
        rw [fetch_stop m0 s s2 rest hm2]
        constructor
        · intro h
          exact Or.inr ⟨by
            unfold Broken
            exact Or.inl hm2, h.symm⟩
        · rintro (⟨ms, h⟩ | ⟨_, hv⟩)
          · cases ms with
            | nil => simp [WalkChain] at h
            | cons a b =>
              simp only [WalkChain] at h
              exact absurd h.1 (hm2 a)
          · exact hv.symm

/-- The nested lookup `rootobj.subobj1.aBool`: the walk reaches `true`. -/
theorem fetch_iff_walk_witness :
    (∃ ms, WalkChain
        [(Key.str "rootobj",
          Value.map [(Key.str "subobj1", Value.map [(Key.str "aBool", Value.bool true)])])]
        ["rootobj", "subobj1", "aBool"] ms (Value.bool true)) ∨
      (Broken
        [(Key.str "rootobj",
          Value.map [(Key.str "subobj1", Value.map [(Key.str "aBool", Value.bool true)])])]
        ["rootobj", "subobj1", "aBool"] ∧ Value.bool true = Value.null) :=
  (fetch_iff_walk _ ["rootobj", "subobj1", "aBool"] (by simp) _).mp rfl

/-! ## C3 -/

/-- C3: a resolved tag that the getter cannot convert gives an error together
with the zero value: `Map` and `Array` for `GetString`; `Float`, `Bool`, `Map`
and `Array` for `GetInt`; `Bool`, `Map` and `Array` for `GetFloat`; `Integer`,
`Float`, `Map` and `Array` for `GetBool`. -/
theorem type_mismatch_errors (fl : FloatLib) (cfg : Config) (path : String) :
    ((fetchRaw cfg path).2 = .Map ∨ (fetchRaw cfg path).2 = .Array →
      ∃ e, GetString fl cfg path = .returned ("", some e)) ∧
    ((fetchRaw cfg path).2 = .Float ∨ (fetchRaw cfg path).2 = .Bool ∨
      (fetchRaw cfg path).2 = .Map ∨ (fetchRaw cfg path).2 = .Array →
      ∃ e, GetInt cfg path = .returned (0, some e)) ∧
    ((fetchRaw cfg path).2 = .Bool ∨ (fetchRaw cfg path).2 = .Map ∨
      (fetchRaw cfg path).2 = .Array →
      ∃ e, GetFloat fl cfg path = .returned (Float64.zero, some e)) ∧
    ((fetchRaw cfg path).2 = .Integer ∨ (fetchRaw cfg path).2 = .Float ∨
      (fetchRaw cfg path).2 = .Map ∨ (fetchRaw cfg path).2 = .Array →
      ∃ e, GetBool cfg path = .returned (false, some e)) := by
  rw [← Fetch_typ]
  refine ⟨?_, ?_, ?_, ?_⟩
  · intro h
    rcases h with h | h <;> simp [GetString, h]
  · intro h
    rcases h with h | h | h | h <;> simp [GetInt, h]
  · intro h
    rcases h with h | h | h <;> simp [GetFloat, h]
  · intro h
    rcases h with h | h | h | h <;> simp [GetBool, h]

/-- A mapping and a float leaf: each getter that cannot convert them errors. -/
theorem type_mismatch_errors_witness :
    (∃ e, GetString FloatLib.sample
        ⟨some [(Key.str "rootobj", Value.map []), (Key.str "rootfloat", Value.float64 ⟨7⟩)]⟩
        "rootobj" = .returned ("", some e)) ∧
    (∃ e, GetInt
        ⟨some [(Key.str "rootobj", Value.map []), (Key.str "rootfloat", Value.float64 ⟨7⟩)]⟩
        "rootfloat" = .returned (0, some e)) ∧
    (∃ e, GetFloat FloatLib.sample
        ⟨some [(Key.str "rootobj", Value.map []), (Key.str "rootfloat", Value.float64 ⟨7⟩)]⟩
        "rootobj" = .returned (Float64.zero, some e)) ∧
    (∃ e, GetBool
        ⟨some [(Key.str "rootobj", Value.map []), (Key.str "rootfloat", Value.float64 ⟨7⟩)]⟩
        "rootfloat" = .returned (false, some e)) :=
  ⟨(type_mismatch_errors FloatLib.sample _ "rootobj").1 (Or.inl (by decide)),
   (type_mismatch_errors FloatLib.sample _ "rootfloat").2.1 (Or.inl (by decide)),
   (type_mismatch_errors FloatLib.sample _ "rootobj").2.2.1 (Or.inr (Or.inl (by decide))),
   (type_mismatch_errors FloatLib.sample _ "rootfloat").2.2.2 (Or.inr (Or.inl (by decide)))⟩

/-! ## C5 -/

/-- C5 (as the code behaves): on a path whose raw value is a sequence `a`,
`Fetch` returns the tag `Array` with the nil interface as its value, not a
sequence; the slice `rg` that the loop builds and drops is `len(a)` nil
entries followed by one entry per element, the nil `map[string]interface{}`
for a mapping and the element itself otherwise. -/
theorem Fetch_sequence_returns_nil (cfg : Config) (path : String) (a : List Value)
    (h : (fetchRaw cfg path).1 = .seq a) :
    Fetch cfg path = (Dyn.raw .null, YamlType.Array) ∧
    (fetchBody cfg path).rg =
      List.replicate a.length (Dyn.raw .null) ++
        a.map (fun v => if yamlTypeOf v = .Map then Dyn.nilStringMap else Dyn.raw v) := by
  constructor
  · rw [Fetch_eq_materialised, h]
    rfl
  · have h2 : (fetchRaw cfg path).2 = YamlType.Array := by
      have : (fetchRaw cfg path).2 = yamlTypeOf (fetchRaw cfg path).1 := rfl
      rw [this, h]
      rfl
    simp only [fetchBody, h2, if_true, h, sliceOrNil, fetchLoop_eq]

/-- The two-element sequence `rootarray`: `Fetch` returns the nil interface. -/
theorem Fetch_sequence_returns_nil_witness :
    Fetch ⟨some [(Key.str "rootarray", Value.seq [Value.int 1, Value.str "two"])]⟩ "rootarray" =
      (Dyn.raw .null, YamlType.Array) :=
  (Fetch_sequence_returns_nil
    ⟨some [(Key.str "rootarray", Value.seq [Value.int 1, Value.str "two"])]⟩ "rootarray"
    [Value.int 1, Value.str "two"] rfl).1

/-! ## C6 -/

/-- C6: on a path whose raw value is a mapping `m`, `Fetch` returns the tag
`Map` and a `Config` whose backing mapping is `m`; `Fetch` on that `Config`
then navigates `m`. -/
theorem Fetch_mapping_wraps (cfg : Config) (path : String) (m : GoMap)
    (h : (fetchRaw cfg path).1 = .map m) :
    Fetch cfg path = (Dyn.config { values := some m }, YamlType.Map) ∧
    ∀ q, (fetchRaw { values := some m } q).1 = fetch (Split q '.') (some m) := by
  constructor
  · rw [Fetch_eq_materialised, h]
    rfl
  · intro q
    rfl

/-- The nested mapping `rootobj.subobj1` comes back as a `Config`. -/
theorem Fetch_mapping_wraps_witness :
    Fetch ⟨some [(Key.str "rootobj", Value.map [(Key.str "subobj1", Value.map [])])]⟩
        "rootobj.subobj1" = (Dyn.config { values := some [] }, YamlType.Map) :=
  (Fetch_mapping_wraps
    ⟨some [(Key.str "rootobj", Value.map [(Key.str "subobj1", Value.map [])])]⟩
    "rootobj.subobj1" [] rfl).1

/-! ## C7 -/

/-- C7 (counterexample): on the root mapping with the single entry `"": 5`,
the empty path resolves to that entry, so its tag is `Integer`, not `Nil`. -/
theorem empty_path_counterexample :
    fetchRaw ⟨some [(Key.str "", Value.int 5)]⟩ "" = (Value.int 5, YamlType.Integer) ∧
    (fetchRaw ⟨some [(Key.str "", Value.int 5)]⟩ "").2 ≠ YamlType.Nil ∧
    (Fetch ⟨some [(Key.str "", Value.int 5)]⟩ "").2 ≠ YamlType.Nil :=
  ⟨rfl, by decide, by decide⟩

/-- C7 (amended): the empty path splits into the single empty segment, so
`fetchRaw("")` returns the value of the root mapping under the key `""`; for
every config whose root mapping holds nothing under that key it returns
`(nil, Nil)`, and so does `Fetch("")`. The empty segment list resolves to nil
in every config. -/
theorem empty_path_absent (cfg : Config)
    (h : ∀ m, cfg.values = some m → m.index "" = .null) :
    Split "" '.' = [""] ∧
    fetch [] cfg.values = .null ∧
    fetchRaw cfg "" = (.null, YamlType.Nil) ∧
    Fetch cfg "" = (Dyn.raw .null, YamlType.Nil) := by
  have hs : Split "" '.' = [""] := by decide
  have hf : fetch [""] cfg.values = .null := by
    cases hv : cfg.values with
    | none => simp [fetch]
    | some m => rw [fetch_single]; exact h m hv
  have hr : fetchRaw cfg "" = (.null, YamlType.Nil) := by
    simp only [fetchRaw, hs, hf, yamlTypeOf]
  refine ⟨hs, ?_, hr, ?_⟩
  · cases cfg.values <;> simp [fetch]
  · rw [Fetch_eq_materialised, hr]
    rfl

/-- A root mapping without the empty key: the empty path is absent. -/
theorem empty_path_absent_witness :
    fetchRaw ⟨some [(Key.str "rootint", Value.int 23466)]⟩ "" = (.null, YamlType.Nil) :=
  (empty_path_absent ⟨some [(Key.str "rootint", Value.int 23466)]⟩
    (fun m hm => by
      cases hm
      rfl)).2.2.1

/-! ## C8 -/

/-- The one-value index expression is the two-value one with nil for a
missing key. -/
theorem index_eq_find (m : GoMap) (s : String) : m.index s = (m.find? s).getD .null := by
  induction m with
  | nil => rfl
  | cons kv rest ih =>
    obtain ⟨k, v⟩ := kv
    unfold GoMap.index GoMap.find?
    split_ifs
    · rfl
    · exact ih

/-- The function `fetch` returns the node the segments designate, nil when
there is none. -/
theorem fetch_eq_resolveNode (segs : List String) (m : GoMap) :
    fetch segs (some m) = (resolveNode segs m).getD .null := by
  induction segs generalizing m with
  | nil => rfl
  | cons s rest ih =>
    cases rest with
    | nil => rw [fetch_single, index_eq_find]; rfl
    | cons s2 rest =>
      have hi := index_eq_find m s
      unfold resolveNode
      cases hf : m.find? s with
      | none =>
        rw [hf] at hi
        rw [fetch_stop m s s2 rest (by intro m' h; rw [h] at hi; cases hi)]
        rfl
      | some v =>
        rw [hf] at hi
        cases v with
        | map m' => rw [fetch_step m m' s s2 rest hi]; exact ih m'
        | _ =>
          rw [fetch_stop m s s2 rest (by intro m' h; rw [h] at hi; cases hi)]
          rfl

/-- The raw value of `fetchRaw` is the node the path designates, nil when
there is none. -/
theorem fetchRaw_eq_node (cfg : Config) (path : String) :
    (fetchRaw cfg path).1 = (cfg.node? path).getD .null := by
  obtain ⟨values⟩ := cfg
  cases values with
  | none => simp [fetchRaw, Config.node?, fetch]
  | some m => exact fetch_eq_resolveNode _ m

/-- C8 (as the code behaves): the tag that `fetchRaw` returns is `Nil` exactly
when the path designates no node of the tree or designates a null node; a
string, an integer held as `int` or as `int64`, a float, a boolean, a sequence
and a mapping are returned with the tag of their own kind; but an integer held
as `uint64`, like a node of any other dynamic type, is returned with the tag
`String`, the zero value that the bare `return` ending `yamlTypeOf` leaves. -/
theorem classification_of_values (cfg : Config) (path : String) :
    ((fetchRaw cfg path).2 = YamlType.Nil ↔
      cfg.node? path = none ∨ cfg.node? path = some .null) ∧
    (∀ s, cfg.node? path = some (.str s) → fetchRaw cfg path = (.str s, YamlType.String)) ∧
    (∀ n, cfg.node? path = some (.int n) → fetchRaw cfg path = (.int n, YamlType.Integer)) ∧
    (∀ n, cfg.node? path = some (.int64 n) →
      fetchRaw cfg path = (.int64 n, YamlType.Integer)) ∧
    (∀ f, cfg.node? path = some (.float64 f) →
      fetchRaw cfg path = (.float64 f, YamlType.Float)) ∧
    (∀ b, cfg.node? path = some (.bool b) → fetchRaw cfg path = (.bool b, YamlType.Bool)) ∧
    (∀ a, cfg.node? path = some (.seq a) → fetchRaw cfg path = (.seq a, YamlType.Array)) ∧
    (∀ m, cfg.node? path = some (.map m) → fetchRaw cfg path = (.map m, YamlType.Map)) ∧
    (∀ n, cfg.node? path = some (.uint64 n) →
      fetchRaw cfg path = (.uint64 n, YamlType.String)) ∧
    (∀ t, cfg.node? path = some (.other t) →
      fetchRaw cfg path = (.other t, YamlType.String)) := by
  have h1 := fetchRaw_eq_node cfg path
  have h2 : fetchRaw cfg path = ((fetchRaw cfg path).1, yamlTypeOf (fetchRaw cfg path).1) := rfl
  rw [h2, h1]
  refine ⟨?_, ?_, ?_, ?_, ?_, ?_, ?_, ?_, ?_, ?_⟩
  · cases hn : cfg.node? path with
    | none => simp [yamlTypeOf]
    | some v => cases v <;> simp [yamlTypeOf]
  all_goals
    intro x hx
    rw [hx]
    rfl

/-- The integer node 18446744073709551615, held as `uint64`, is returned with
the tag `String`, which is not `Integer`. -/
theorem classification_of_values_witness :
    fetchRaw ⟨some [(Key.str "u", Value.uint64 18446744073709551615)]⟩ "u" =
      (Value.uint64 18446744073709551615, YamlType.String) ∧
    YamlType.String ≠ YamlType.Integer :=
  ⟨(classification_of_values
      ⟨some [(Key.str "u", Value.uint64 18446744073709551615)]⟩
      "u").2.2.2.2.2.2.2.2.1 18446744073709551615 rfl,
   by decide⟩

/-! ## C9 -/

/-- C9 (counterexample): the string `TrUe` equals `true` when case is
ignored, yet `GetBool` on a path resolving to it returns a syntax error. -/
theorem GetBool_mixed_case_counterexample :
    "TrUe".data.map Char.toLower = "true".data ∧
    GetBool ⟨some [(Key.str "flag", Value.str "TrUe")]⟩ "flag" =
      .returned (false, some (.numError "ParseBool" "TrUe" .ErrSyntax)) :=
  ⟨by decide, by decide⟩

/-- C9 (amended): on a path resolving to a String `s`, `GetBool` returns
`ParseBool(s)`: `(true, nil)` when `s` is one of the six spellings `1`, `t`,
`T`, `true`, `TRUE`, `True`; `(false, nil)` when `s` is one of `0`, `f`, `F`,
`false`, `FALSE`, `False`; and `false` with a syntax error for every other
string, so that it succeeds exactly on these twelve spellings. -/
theorem GetBool_string (cfg : Config) (path : String) (s : String)
    (h : (fetchRaw cfg path).1 = .str s) :
    (s ∈ ["1", "t", "T", "true", "TRUE", "True"] →
      GetBool cfg path = .returned (true, none)) ∧
    (s ∈ ["0", "f", "F", "false", "FALSE", "False"] →
      GetBool cfg path = .returned (false, none)) ∧
    (s ∉ ["1", "t", "T", "true", "TRUE", "True", "0", "f", "F", "false", "FALSE", "False"] →
      GetBool cfg path = .returned (false, some (.numError "ParseBool" s .ErrSyntax))) ∧
    ((∃ b, GetBool cfg path = .returned (b, none)) ↔
      s ∈ ["1", "t", "T", "true", "TRUE", "True", "0", "f", "F", "false", "FALSE", "False"]) := by
  have hg : GetBool cfg path = .returned (ParseBool s) := by
    simp only [GetBool, Fetch_eq_materialised, h]
    simp [materialised, yamlTypeOf, assertString, Outcome.bind]
  rw [hg]
  refine ⟨?_, ?_, ?_, ?_⟩
  · intro hs
    simp only [List.mem_cons, List.mem_singleton, List.not_mem_nil, or_false] at hs
    rcases hs with rfl | rfl | rfl | rfl | rfl | rfl <;> decide
  · intro hs
    simp only [List.mem_cons, List.mem_singleton, List.not_mem_nil, or_false] at hs
    rcases hs with rfl | rfl | rfl | rfl | rfl | rfl <;> decide
  · intro hs
    simp only [List.mem_cons, List.mem_singleton, List.not_mem_nil, or_false, not_or] at hs
    obtain ⟨h1, h2, h3, h4, h5, h6, h7, h8, h9, h10, h11, h12⟩ := hs
    simp [ParseBool, h1, h2, h3, h4, h5, h6, h7, h8, h9, h10, h11, h12]
  · simp only [List.mem_cons, List.mem_singleton, List.not_mem_nil, or_false]
    constructor
    · rintro ⟨b, hb⟩
      by_contra hs
      simp only [not_or] at hs
      obtain ⟨h1, h2, h3, h4, h5, h6, h7, h8, h9, h10, h11, h12⟩ := hs
      simp [ParseBool, h1, h2, h3, h4, h5, h6, h7, h8, h9, h10, h11, h12] at hb
    · intro hs
      rcases hs with rfl | rfl | rfl | rfl | rfl | rfl | rfl | rfl | rfl | rfl | rfl | rfl
      all_goals first
        | exact ⟨true, by decide⟩
        | exact ⟨false, by decide⟩

/-- The string node `true` converts to the boolean `true`. -/
theorem GetBool_string_witness :
    GetBool ⟨some [(Key.str "tfTrue", Value.str "true")]⟩ "tfTrue" = .returned (true, none) :=
  (GetBool_string ⟨some [(Key.str "tfTrue", Value.str "true")]⟩ "tfTrue" "true" rfl).1
    (by decide)

/-! ## C4 -/

/-- C4 (as the code behaves): `GetString` on the Integer 23466 returns
"23466" with a nil error, but `GetInt` on the String "23466" returns 511 with
the range error of `strconv.ParseInt`, which is called with bit size 10, and
not 23466 with a nil error. -/
theorem integer_round_trip_23466 :
    GetString FloatLib.sample ⟨some [(Key.str "rootint", Value.int 23466)]⟩ "rootint" =
      .returned ("23466", none) ∧
    GetInt ⟨some [(Key.str "rootint", Value.str "23466")]⟩ "rootint" =
      .returned (511, some (.numError "ParseInt" "23466" .ErrRange)) ∧
    GetInt ⟨some [(Key.str "rootint", Value.str "23466")]⟩ "rootint" ≠
      .returned (23466, none) :=
  ⟨by decide, by decide, by decide⟩

/-! ## C10 -/

/-- The getters `GetString`, `GetInt` and `GetFloat` panic exactly on a path
resolving to an integer held as `int64`, where the assertion `val.(int)`
fails, or to a `uint64` or a value of another dynamic type, which is tagged
`String` and fails the assertion `val.(string)`; `GetBool` panics exactly on
the latter two. On every other path the getters return. -/
theorem getters_panic_iff (fl : FloatLib) (cfg : Config) (path : String) :
    ((∃ r, GetString fl cfg path = .panicked r) ↔
      (∃ n, (fetchRaw cfg path).1 = .int64 n) ∨ (∃ n, (fetchRaw cfg path).1 = .uint64 n) ∨
        ∃ t, (fetchRaw cfg path).1 = .other t) ∧
    ((∃ r, GetInt cfg path = .panicked r) ↔
      (∃ n, (fetchRaw cfg path).1 = .int64 n) ∨ (∃ n, (fetchRaw cfg path).1 = .uint64 n) ∨
        ∃ t, (fetchRaw cfg path).1 = .other t) ∧
    ((∃ r, GetFloat fl cfg path = .panicked r) ↔
      (∃ n, (fetchRaw cfg path).1 = .int64 n) ∨ (∃ n, (fetchRaw cfg path).1 = .uint64 n) ∨
        ∃ t, (fetchRaw cfg path).1 = .other t) ∧
    ((∃ r, GetBool cfg path = .panicked r) ↔
      (∃ n, (fetchRaw cfg path).1 = .uint64 n) ∨ ∃ t, (fetchRaw cfg path).1 = .other t) := by
  simp only [GetString, GetInt, GetFloat, GetBool, Fetch_eq_materialised]
  generalize (fetchRaw cfg path).1 = v
  cases v <;>
    simp [materialised, yamlTypeOf, assertString, assertInt, assertFloat64, assertBool,
      Outcome.bind, conversionPanic]

/-- With the integer 18446744073709551615 held as `uint64`, tagged `String`,
all four getters panic on the failed assertion `val.(string)`. -/
theorem getters_panic_on_uint64 :
    GetString FloatLib.sample ⟨some [(Key.str "u", Value.uint64 18446744073709551615)]⟩ "u" =
      .panicked "interface conversion: interface \x7b\x7d is uint64, not string" ∧
    GetInt ⟨some [(Key.str "u", Value.uint64 18446744073709551615)]⟩ "u" =
      .panicked "interface conversion: interface \x7b\x7d is uint64, not string" ∧
    GetFloat FloatLib.sample ⟨some [(Key.str "u", Value.uint64 18446744073709551615)]⟩ "u" =
      .panicked "interface conversion: interface \x7b\x7d is uint64, not string" ∧
    GetBool ⟨some [(Key.str "u", Value.uint64 18446744073709551615)]⟩ "u" =
      .panicked "interface conversion: interface \x7b\x7d is uint64, not string" :=
  ⟨by decide, by decide, by decide, by decide⟩

/-- C10 (failing input): with the integer 5000000000 held as `int64`,
`GetInt`, `GetString` and `GetFloat` panic on the failed assertion
`val.(int)`. -/
theorem getters_panic_on_int64 :
    GetInt ⟨some [(Key.str "big", Value.int64 5000000000)]⟩ "big" =
      .panicked "interface conversion: interface \x7b\x7d is int64, not int" ∧
    GetString FloatLib.sample ⟨some [(Key.str "big", Value.int64 5000000000)]⟩ "big" =
      .panicked "interface conversion: interface \x7b\x7d is int64, not int" ∧
    GetFloat FloatLib.sample ⟨some [(Key.str "big", Value.int64 5000000000)]⟩ "big" =
      .panicked "interface conversion: interface \x7b\x7d is int64, not int" :=
  ⟨by decide, by decide, by decide⟩


/-! ## C11 -/

/-- C11 (as the code behaves): on every path where a getter returns its own
conversion error, the message is "Cannot convert T into X" with `T` the name
of the resolved tag; `X` is `string` for `GetString`, `int64` for `GetInt` and
`float64` for `GetFloat`, so these three name the tag and their target type,
while `GetBool` also says `float64`: its message names the tag but does not
contain `bool`. -/
theorem conversion_error_messages (fl : FloatLib) (cfg : Config) (path : String) :
    ((fetchRaw cfg path).2 = .Map ∨ (fetchRaw cfg path).2 = .Array →
      ∃ msg, GetString fl cfg path = .returned ("", some (.errorf msg)) ∧
        (YamlType_String (fetchRaw cfg path).2).data <:+: msg.data ∧
        "string".data <:+: msg.data) ∧
    ((fetchRaw cfg path).2 = .Float ∨ (fetchRaw cfg path).2 = .Bool ∨
      (fetchRaw cfg path).2 = .Map ∨ (fetchRaw cfg path).2 = .Array →
      ∃ msg, GetInt cfg path = .returned (0, some (.errorf msg)) ∧
        (YamlType_String (fetchRaw cfg path).2).data <:+: msg.data ∧
        "int".data <:+: msg.data) ∧
    ((fetchRaw cfg path).2 = .Bool ∨ (fetchRaw cfg path).2 = .Map ∨
      (fetchRaw cfg path).2 = .Array →
      ∃ msg, GetFloat fl cfg path = .returned (Float64.zero, some (.errorf msg)) ∧
        (YamlType_String (fetchRaw cfg path).2).data <:+: msg.data ∧
        "float".data <:+: msg.data) ∧
    ((fetchRaw cfg path).2 = .Integer ∨ (fetchRaw cfg path).2 = .Float ∨
      (fetchRaw cfg path).2 = .Map ∨ (fetchRaw cfg path).2 = .Array ∨
      (fetchRaw cfg path).2 = .Nil →
      ∃ msg, GetBool cfg path = .returned (false, some (.errorf msg)) ∧
        (YamlType_String (fetchRaw cfg path).2).data <:+: msg.data ∧
        "float64".data <:+: msg.data ∧
        ¬ "bool".data <:+: msg.data) := by
  rw [← Fetch_typ]
  refine ⟨?_, ?_, ?_, ?_⟩
  · intro h
    rcases h with h | h <;> simp only [GetString, h] <;> exact ⟨_, rfl, by decide, by decide⟩
  · intro h
    rcases h with h | h | h | h <;> simp only [GetInt, h] <;>
      exact ⟨_, rfl, by decide, by decide⟩
  · intro h
    rcases h with h | h | h <;> simp only [GetFloat, h] <;>
      exact ⟨_, rfl, by decide, by decide⟩
  · intro h
    rcases h with h | h | h | h | h <;> simp only [GetBool, h] <;>
      exact ⟨_, rfl, by decide, by decide, by decide⟩

/-- The integer leaf `rootint`: the error of `GetBool` names `float64`. -/
theorem conversion_error_messages_witness :
    ∃ msg, GetBool ⟨some [(Key.str "rootint", Value.int 23466)]⟩ "rootint" =
        .returned (false, some (.errorf msg)) ∧
      (YamlType_String
        (fetchRaw ⟨some [(Key.str "rootint", Value.int 23466)]⟩ "rootint").2).data <:+: msg.data ∧
      "float64".data <:+: msg.data ∧
      ¬ "bool".data <:+: msg.data :=
  (conversion_error_messages FloatLib.sample
    ⟨some [(Key.str "rootint", Value.int 23466)]⟩ "rootint").2.2.2 (Or.inl (by decide))

/-! ## Facts about `strconv.ParseInt` with base 0 and bit size 10 -/

/-- Every error of `ParseUint` is a `*NumError`. -/
theorem ParseUint_error (s : String) (base bitSize : Int) (e : GoError)
    (h : (ParseUint s base bitSize).2 = some e) : ∃ k, e = .numError "ParseUint" s k := by
  unfold ParseUint at h
  simp only at h
  repeat' split at h
  all_goals first
    | exact ⟨_, (Option.some.inj h).symm⟩
    | cases h

/-- The four ways `ParseInt(s, 0, 10)` ends: an error other than a range
error with the value 0; a range error with the bound 511 or -512; or no
error with a value between -512 and 511. -/
theorem ParseInt_10_cases (s : String) :
    (∃ k, k ≠ NumErr.ErrRange ∧ ParseInt s 0 10 = (0, some (.numError "ParseInt" s k))) ∨
    ParseInt s 0 10 = (511, some (.numError "ParseInt" s .ErrRange)) ∨
    ParseInt s 0 10 = (-512, some (.numError "ParseInt" s .ErrRange)) ∨
    (∃ n, -512 ≤ n ∧ n ≤ 511 ∧ ParseInt s 0 10 = (n, none)) := by
  unfold ParseInt
  simp only
  by_cases hs : s = ""
  · rw [if_pos hs]
    exact Or.inl ⟨_, by decide, rfl⟩
  · rw [if_neg hs]
    have hc : (2 : ℕ) ^ ((if (10 : ℤ) = 0 then IntSize else (10 : ℤ).toNat) - 1) % 2 ^ 64 = 512 := by
      decide
    rw [hc]
    generalize (match s.data with
      | c :: _ => decide (c = '-')
      | [] => false) = neg
    generalize (match s.data with
      | c :: cs => if c = '+' ∨ c = '-' then cs else c :: cs
      | [] => []) = rest
    have hu := ParseUint_error (String.mk rest) 0 10
    generalize ParseUint (String.mk rest) 0 10 = r at hu
    obtain ⟨un, err⟩ := r
    simp only at hu ⊢
    split
    · exact Or.inl ⟨_, by decide, rfl⟩
    · exact Or.inl ⟨_, by simp, rfl⟩
    · exact Or.inl ⟨_, by simp, rfl⟩
    · obtain ⟨k, hk⟩ := hu _ rfl
      cases hk
    · by_cases h1 : neg = false ∧ un ≥ 512
      · rw [if_pos h1]
        exact Or.inr (Or.inl rfl)
      · rw [if_neg h1]
        by_cases h2 : neg = true ∧ un > 512
        · rw [if_pos h2]
          exact Or.inr (Or.inr (Or.inl rfl))
        · rw [if_neg h2]
          refine Or.inr (Or.inr (Or.inr ⟨_, ?_, ?_, rfl⟩))
          · cases neg <;> simp at h1 h2 ⊢ <;> omega
          · cases neg <;> simp at h1 h2 ⊢ <;> omega

/-! ## C12 -/

/-- C12 (counterexample): on the String "-1000" `GetInt` returns the range
error of the parse together with the bound -512, not 0. -/
theorem GetInt_error_nonzero_counterexample :
    GetInt ⟨some [(Key.str "port", Value.str "-1000")]⟩ "port" =
      .returned (-512, some (.numError "ParseInt" "-1000" .ErrRange)) ∧
    (-512 : Int) ≠ 0 :=
  ⟨by decide, by decide⟩

/-- C12 (amended): whenever `GetInt` returns an error other than the range
error of the string parse (its own conversion error, or a syntax error of the
parse) the integer it returns is 0. -/
theorem GetInt_error_zero (cfg : Config) (path : String) (n : Int) (e : GoError)
    (h : GetInt cfg path = .returned (n, some e))
    (hr : ∀ fn num, e ≠ .numError fn num .ErrRange) : n = 0 := by
  simp only [GetInt, Fetch_eq_materialised] at h
  generalize (fetchRaw cfg path).1 = v at h
  cases v <;>
    simp [materialised, yamlTypeOf, assertString, assertInt, Outcome.bind, conversionPanic] at h
  · rename_i s
    rcases ParseInt_10_cases s with ⟨k, _, hp⟩ | hp | hp | ⟨m, _, _, hp⟩ <;>
      rw [hp] at h <;> simp at h
    · exact h.1.symm
    · exact absurd h.2.symm (hr _ _)
    · exact absurd h.2.symm (hr _ _)
  · exact h.1.symm
  · exact h.1.symm
  · exact h.1.symm
  · exact h.1.symm

/-- The string node "this is a string": a syntax error with the value 0. -/
theorem GetInt_error_zero_witness :
    GetInt ⟨some [(Key.str "rootstring", Value.str "this is a string")]⟩ "rootstring" =
      .returned (0, some (.numError "ParseInt" "this is a string" .ErrSyntax)) ∧
    (0 : Int) = 0 :=
  ⟨by decide,
   GetInt_error_zero ⟨some [(Key.str "rootstring", Value.str "this is a string")]⟩
     "rootstring" 0 (.numError "ParseInt" "this is a string" .ErrSyntax) (by decide)
     (fun _ _ => by simp)⟩

/-! ## C17 -/

/-- C17: on a path resolving to a String, whenever `GetInt` returns with a nil
error the integer it returns lies between -512 and 511. -/
theorem GetInt_string_ten_bits (cfg : Config) (path : String) (s : String) (n : Int)
    (hs : (fetchRaw cfg path).1 = .str s)
    (h : GetInt cfg path = .returned (n, none)) : -512 ≤ n ∧ n ≤ 511 := by
  simp only [GetInt, Fetch_eq_materialised, hs] at h
  simp [materialised, yamlTypeOf, assertString, Outcome.bind] at h
  rcases ParseInt_10_cases s with ⟨k, _, hp⟩ | hp | hp | ⟨m, h1, h2, hp⟩ <;>
    rw [hp] at h <;> simp at h
  subst h
  exact ⟨h1, h2⟩

/-- The string node "0x1ff" converts to 511, the largest value returned. -/
theorem GetInt_string_ten_bits_witness :
    GetInt ⟨some [(Key.str "mask", Value.str "0x1ff")]⟩ "mask" = .returned (511, none) ∧
    (-512 : Int) ≤ 511 ∧ (511 : Int) ≤ 511 :=
  ⟨by decide,
   GetInt_string_ten_bits ⟨some [(Key.str "mask", Value.str "0x1ff")]⟩ "mask" "0x1ff" 511
     rfl (by decide)⟩

/-! ## C15 -/

/-- A split always yields at least one piece. -/
theorem splitChars_ne_nil (sep : Char) (cs : List Char) : splitChars sep cs ≠ [] := by
  cases cs with
  | nil => simp [splitChars]
  | cons c cs =>
    unfold splitChars
    split_ifs
    · simp
    · split <;> simp

/-- No piece of a split contains the separator. -/
theorem splitChars_no_sep (sep : Char) (cs : List Char) :
    ∀ seg ∈ splitChars sep cs, sep ∉ seg := by
  induction cs with
  | nil => simp [splitChars]
  | cons c cs ih =>
    unfold splitChars
    split_ifs with hc
    · intro seg hseg
      rcases List.mem_cons.mp hseg with rfl | hseg
      · simp
      · exact ih seg hseg
    · split
      · intro seg hseg
        simp only [List.mem_singleton] at hseg
        subst hseg
        simpa using fun h => hc h.symm
      · next seg0 rest heq =>
        rw [heq] at ih
        intro seg hseg
        rcases List.mem_cons.mp hseg with rfl | hseg
        · intro hmem
          rcases List.mem_cons.mp hmem with h | h
          · exact hc h.symm
          · exact ih seg0 (List.mem_cons_self _ _) h
        · exact ih seg (List.mem_cons_of_mem _ hseg)

/-- A segment without a dot indexes nothing in a mapping whose string keys
all contain a dot. -/
theorem index_dotted_keys (m : GoMap)
    (h : ∀ kv ∈ m, ∀ s, kv.1 = Key.str s → '.' ∈ s.data) (seg : String)
    (hseg : '.' ∉ seg.data) : m.index seg = .null := by
  induction m with
  | nil => rfl
  | cons kv rest ih =>
    obtain ⟨k, v⟩ := kv
    unfold GoMap.index
    split_ifs with hk
    · exact absurd (h (k, v) (List.mem_cons_self _ _) seg hk) hseg
    · exact ih (fun kv hkv => h kv (List.mem_cons_of_mem _ hkv))

/-- C15: a path split on dots has only segments without a dot, so on every
root mapping whose string keys all contain a dot every path resolves to
`(nil, Nil)`. -/
theorem dotted_keys_unreachable (m : GoMap)
    (h : ∀ kv ∈ m, ∀ s, kv.1 = Key.str s → '.' ∈ s.data) (p : String) :
    (∀ seg ∈ Split p '.', '.' ∉ seg.data) ∧
    fetchRaw ⟨some m⟩ p = (.null, YamlType.Nil) := by
  have hsegs : ∀ seg ∈ Split p '.', '.' ∉ seg.data := by
    intro seg hseg
    simp only [Split, List.mem_map] at hseg
    obtain ⟨cs, hcs, rfl⟩ := hseg
    exact splitChars_no_sep '.' p.data cs hcs
  refine ⟨hsegs, ?_⟩
  have hf : fetch (Split p '.') (some m) = .null := by
    generalize Split p '.' = segs at hsegs
    cases segs with
    | nil => rfl
    | cons s rest =>
      have hi := index_dotted_keys m h s (hsegs s (List.mem_cons_self _ _))
      cases rest with
      | nil => rw [fetch_single, hi]
      | cons s2 rest =>
        exact fetch_stop m s s2 rest (by intro m' hm; rw [hi] at hm; cases hm)
  simp only [fetchRaw, hf, yamlTypeOf]

/-- The key `a.b` is not reached by the path `a.b`. -/
theorem dotted_keys_unreachable_witness :
    fetchRaw ⟨some [(Key.str "a.b", Value.int 1)]⟩ "a.b" = (.null, YamlType.Nil) :=
  (dotted_keys_unreachable [(Key.str "a.b", Value.int 1)]
    (by
      intro kv hkv s hs
      simp only [List.mem_singleton] at hkv
      subst hkv
      cases hs
      decide) "a.b").2

/-! ## C16 -/

/-- One step of the split. -/
theorem splitChars_cons (sep c : Char) (cs : List Char) :
    splitChars sep (c :: cs) =
      if c = sep then [] :: splitChars sep cs
      else match splitChars sep cs with
        | [] => [[c]]
        | seg :: rest => (c :: seg) :: rest := by
  rw [splitChars]

/-- Splitting two texts joined by the separator gives the pieces of the
first followed by the pieces of the second. -/
theorem splitChars_join (sep : Char) (a b : List Char) :
    splitChars sep (a ++ sep :: b) = splitChars sep a ++ splitChars sep b := by
  induction a with
  | nil => simp [splitChars]
  | cons c a ih =>
    simp only [List.cons_append, splitChars_cons]
    split_ifs with hc
    · simp [ih]
    · rw [ih]
      cases hsa : splitChars sep a with
      | nil => exact absurd hsa (splitChars_ne_nil sep a)
      | cons seg rest => simp

/-- The split of `p.q` is the split of `p` followed by the split of `q`. -/
theorem Split_join (p q : String) :
    Split (p ++ "." ++ q) '.' = Split p '.' ++ Split q '.' := by
  have hd : (p ++ "." ++ q).data = p.data ++ '.' :: q.data := by
    simp [String.data_append]
  simp only [Split, hd, splitChars_join, List.map_append]

/-- Navigation along a path that reaches a mapping, continued by a non-empty
path, is navigation of the second path in that mapping. -/
theorem fetch_append (ps qs : List String) (m m' : GoMap) (hq : qs ≠ [])
    (h : fetch ps (some m) = .map m') :
    fetch (ps ++ qs) (some m) = fetch qs (some m') := by
  induction ps generalizing m with
  | nil => simp [fetch] at h
  | cons s rest ih =>
    cases rest with
    | nil =>
      rw [fetch_single] at h
      cases qs with
      | nil => exact absurd rfl hq
      | cons q qs => exact fetch_step m m' s q qs h
    | cons s2 rest =>
      by_cases hm : ∃ m1, m.index s = .map m1
      · obtain ⟨m1, hm1⟩ := hm
        rw [fetch_step m m1 s s2 rest hm1] at h
        simp only [List.cons_append]
        rw [fetch_step m m1 s s2 (rest ++ qs) hm1]
        exact ih m1 h
      · rw [fetch_stop m s s2 rest (fun m1 h1 => hm ⟨m1, h1⟩)] at h
        cases h

/-- C16: when `Fetch(p)` returns a `Config` with the tag `Map`, `Fetch` of
`p`, a dot and any path `q` (empty or dotted included) on the original config
returns what `Fetch(q)` returns on that `Config`. -/
theorem Fetch_compose (c : Config) (p : String) (c' : Config) (q : String)
    (h : Fetch c p = (Dyn.config c', YamlType.Map)) :
    Fetch c (p ++ "." ++ q) = Fetch c' q := by
  rw [Fetch_eq_materialised] at h
  have hv : ∃ m, (fetchRaw c p).1 = .map m ∧ c' = ⟨some m⟩ := by
    generalize (fetchRaw c p).1 = v at h
    cases v <;> simp [materialised, yamlTypeOf] at h
    exact ⟨_, rfl, h.symm⟩
  obtain ⟨m', hm', rfl⟩ := hv
  obtain ⟨values⟩ := c
  cases values with
  | none => simp [fetchRaw, fetch] at hm'
  | some m =>
    have hq : Split q '.' ≠ [] := by
      simp [Split, splitChars_ne_nil]
    have hf : fetch (Split (p ++ "." ++ q) '.') (some m) = fetch (Split q '.') (some m') := by
      rw [Split_join]
      exact fetch_append _ _ m m' hq hm'
    rw [Fetch_eq_materialised, Fetch_eq_materialised]
    simp only [fetchRaw, hf]

/-- The path `rootobj.subobj1.aBool` and the path `subobj1.aBool` from the
`Config` that `Fetch("rootobj")` returns. -/
theorem Fetch_compose_witness :
    Fetch ⟨some [(Key.str "rootobj",
        Value.map [(Key.str "subobj1", Value.map [(Key.str "aBool", Value.bool true)])])]⟩
      ("rootobj" ++ "." ++ "subobj1.aBool") =
    Fetch ⟨some [(Key.str "subobj1", Value.map [(Key.str "aBool", Value.bool true)])]⟩
      "subobj1.aBool" :=
  Fetch_compose _ "rootobj" _ "subobj1.aBool" rfl

/-! ## C13 -/

/-- C13 (as the code behaves): `GetString` on a String leaf, `GetInt` on an
Integer leaf held as `int`, `GetFloat` on a Float leaf and `GetBool` on a Bool
leaf return the leaf with a nil error, and `GetBool("rootobj.subobj1.aBool")`
is true on the nested example; but `GetInt` on an Integer leaf held as
`int64` panics instead of returning it. -/
theorem getters_on_own_type (fl : FloatLib) (cfg : Config) (path : String) :
    (∀ s, (fetchRaw cfg path).1 = .str s → GetString fl cfg path = .returned (s, none)) ∧
    (∀ n, (fetchRaw cfg path).1 = .int n → GetInt cfg path = .returned (n, none)) ∧
    (∀ f, (fetchRaw cfg path).1 = .float64 f → GetFloat fl cfg path = .returned (f, none)) ∧
    (∀ b, (fetchRaw cfg path).1 = .bool b → GetBool cfg path = .returned (b, none)) ∧
    (∀ n, (fetchRaw cfg path).1 = .int64 n →
      GetInt cfg path = .panicked "interface conversion: interface \x7b\x7d is int64, not int") ∧
    GetBool ⟨some [(Key.str "rootobj",
        Value.map [(Key.str "subobj1", Value.map [(Key.str "aBool", Value.bool true)])])]⟩
      "rootobj.subobj1.aBool" = .returned (true, none) := by
  refine ⟨?_, ?_, ?_, ?_, ?_, by decide⟩
  all_goals
    intro x hx
    simp only [GetString, GetInt, GetFloat, GetBool, Fetch_eq_materialised, hx]
    simp [materialised, yamlTypeOf, assertString, assertInt, assertFloat64, assertBool,
      Outcome.bind, conversionPanic, dynTypeName]

/-- An integer leaf held as `int` is returned; one held as `int64` makes
`GetInt` panic. -/
theorem getters_on_own_type_witness :
    GetInt ⟨some [(Key.str "rootint", Value.int 23466)]⟩ "rootint" = .returned (23466, none) ∧
    GetInt ⟨some [(Key.str "rootint", Value.int64 23466)]⟩ "rootint" =
      .panicked "interface conversion: interface \x7b\x7d is int64, not int" :=
  ⟨(getters_on_own_type FloatLib.sample
      ⟨some [(Key.str "rootint", Value.int 23466)]⟩ "rootint").2.1 23466 rfl,
   (getters_on_own_type FloatLib.sample
      ⟨some [(Key.str "rootint", Value.int64 23466)]⟩ "rootint").2.2.2.2.1 23466 rfl⟩

/-! ## C18 -/

/-- C18: there is a string of decimal digits, `010`, on which `GetInt`
returns with a nil error a value, 8, that is not the decimal reading of the
string, on every path resolving to that String. -/
theorem GetInt_not_decimal :
    ∃ s : String, s.data ≠ [] ∧ (∀ c ∈ s.data, c.isDigit = true) ∧
      ∃ n : Int, n ≠ (decimalValue s.data : Int) ∧
        GetInt ⟨some [(Key.str "mode", Value.str s)]⟩ "mode" = .returned (n, none) ∧
        ∀ cfg path, (fetchRaw cfg path).1 = .str s → GetInt cfg path = .returned (n, none) := by
  refine ⟨"010", by decide, by decide, 8, by decide, by decide, ?_⟩
  intro cfg path hs
  simp only [GetInt, Fetch_eq_materialised, hs]
  simp only [materialised, yamlTypeOf, assertString, Outcome.bind]
  decide

/-! ## C14 -/

/-- The character of a decimal digit has the code of that digit. -/
theorem digitChar_toNat (d : Nat) (hd : d < 10) : (Char.ofNat (48 + d)).toNat = 48 + d := by
  interval_cases d <;> rfl

/-- The character of a decimal digit is a digit. -/
theorem digitChar_isDigit (d : Nat) (hd : d < 10) : (Char.ofNat (48 + d)).isDigit = true := by
  interval_cases d <;> rfl

/-- The decimal reading of a numeral extended by one digit. -/
theorem decimalValue_append (xs : List Char) (c : Char) :
    decimalValue (xs ++ [c]) = 10 * decimalValue xs + (c.toNat - 48) := by
  simp [decimalValue, List.foldl_append]

/-- The digits written for `n` read back as `n`. -/
theorem decimalDigits_value (fuel n : Nat) (h : n < fuel) :
    decimalValue (decimalDigits fuel n) = n := by
  induction fuel generalizing n with
  | zero => omega
  | succ fuel ih =>
    unfold decimalDigits
    split_ifs with hn
    · simp [decimalValue, digitChar_toNat n hn]
    · rw [decimalValue_append, ih (n / 10) (by omega), digitChar_toNat (n % 10) (by omega)]
      omega

/-- Only digits are written. -/
theorem decimalDigits_isDigit (fuel n : Nat) :
    ∀ c ∈ decimalDigits fuel n, c.isDigit = true := by
  induction fuel generalizing n with
  | zero => simp [decimalDigits]
  | succ fuel ih =>
    unfold decimalDigits
    split_ifs with hn
    · intro c hc
      simp only [List.mem_singleton] at hc
      subst hc
      exact digitChar_isDigit n hn
    · intro c hc
      rcases List.mem_append.mp hc with hc | hc
      · exact ih (n / 10) c hc
      · simp only [List.mem_singleton] at hc
        subst hc
        exact digitChar_isDigit (n % 10) (by omega)

/-- At least one digit is written. -/
theorem decimalDigits_ne_nil (fuel n : Nat) (h : 0 < fuel) : decimalDigits fuel n ≠ [] := by
  cases fuel with
  | zero => omega
  | succ fuel =>
    unfold decimalDigits
    split_ifs <;> simp

/-- No zero is written in front of a positive number. -/
theorem decimalDigits_head (fuel n : Nat) (h : n < fuel) (hpos : 0 < n) :
    (decimalDigits fuel n).head? ≠ some '0' := by
  induction fuel generalizing n with
  | zero => omega
  | succ fuel ih =>
    unfold decimalDigits
    split_ifs with hn
    · intro hh
      simp only [List.head?_cons, Option.some.injEq] at hh
      have := digitChar_toNat n hn
      rw [hh] at this
      have h0 : ('0' : Char).toNat = 48 := rfl
      omega
    · rw [List.head?_append_of_ne_nil _ (decimalDigits_ne_nil fuel (n / 10) (by omega))]
      exact ih (n / 10) (by omega) (by omega)

/-- C14 (as the code behaves): `GetString` on an Integer leaf `n` held as
`int` returns, with a nil error, the decimal numeral of `n`: a minus sign
exactly when `n` is negative, then at least one digit, only digits, reading
as the absolute value of `n`, with no leading zero unless `n` is 0; on a Bool
leaf it returns "true" or "false" with a nil error; but on an Integer leaf
held as `int64` it panics. -/
theorem GetString_canonical (fl : FloatLib) (cfg : Config) (path : String) :
    (∀ n, (fetchRaw cfg path).1 = .int n →
      ∃ ds : List Char,
        GetString fl cfg path = .returned (String.mk (if n < 0 then '-' :: ds else ds), none) ∧
        ds ≠ [] ∧ (∀ c ∈ ds, c.isDigit = true) ∧ decimalValue ds = n.natAbs ∧
        (n ≠ 0 → ds.head? ≠ some '0') ∧ (n = 0 → ds = ['0'])) ∧
    (∀ b, (fetchRaw cfg path).1 = .bool b →
      GetString fl cfg path = .returned (if b then "true" else "false", none)) ∧
    (∀ n, (fetchRaw cfg path).1 = .int64 n →
      GetString fl cfg path =
        .panicked "interface conversion: interface \x7b\x7d is int64, not int") := by
  refine ⟨?_, ?_, ?_⟩
  · intro n hn
    refine ⟨decimalDigits (n.natAbs + 1) n.natAbs, ?_, ?_, ?_, ?_, ?_, ?_⟩
    · simp only [GetString, Fetch_eq_materialised, hn]
      simp only [materialised, yamlTypeOf, assertInt, Outcome.bind, Sprintf_v_int]
      split_ifs <;> simp_all
    · exact decimalDigits_ne_nil _ _ (by omega)
    · exact decimalDigits_isDigit _ _
    · exact decimalDigits_value _ _ (by omega)
    · intro h0
      exact decimalDigits_head _ _ (by omega) (by omega)
    · intro h0
      subst h0
      rfl
  · intro b hb
    simp only [GetString, Fetch_eq_materialised, hb]
    simp [materialised, yamlTypeOf, assertBool, Outcome.bind, Sprintf_v_bool]
  · intro n hn
    simp only [GetString, Fetch_eq_materialised, hn]
    simp [materialised, yamlTypeOf, assertInt, Outcome.bind, conversionPanic, dynTypeName]

/-- The integer leaf -23466 held as `int` is rendered with its sign; held as
`int64` it makes `GetString` panic. -/
theorem GetString_canonical_witness :
    (∃ ds : List Char,
      GetString FloatLib.sample ⟨some [(Key.str "rootint", Value.int (-23466))]⟩ "rootint" =
        .returned (String.mk (if (-23466 : Int) < 0 then '-' :: ds else ds), none) ∧
      ds ≠ [] ∧ (∀ c ∈ ds, c.isDigit = true) ∧ decimalValue ds = (-23466 : Int).natAbs ∧
      ((-23466 : Int) ≠ 0 → ds.head? ≠ some '0') ∧ ((-23466 : Int) = 0 → ds = ['0'])) ∧
    GetString FloatLib.sample ⟨some [(Key.str "rootint", Value.int64 23466)]⟩ "rootint" =
      .panicked "interface conversion: interface \x7b\x7d is int64, not int" :=
  ⟨(GetString_canonical FloatLib.sample
      ⟨some [(Key.str "rootint", Value.int (-23466))]⟩ "rootint").1 (-23466) rfl,
   (GetString_canonical FloatLib.sample
      ⟨some [(Key.str "rootint", Value.int64 23466)]⟩ "rootint").2.2 23466 rfl⟩

end Yamlcfg
